import Mathlib

/-!
Shallow embedding of the AI-Video-Course-Generator core: the generation
orchestrator, the duration resolver and the timeline composer from
src/app/(routes)/course/[courseId]/page.tsx, the caption loop from
src/app/(routes)/course/[courseId]/_components/ChapterVideo.tsx, and the
429 branch of src/app/api/generate-video-content/route.ts.

JavaScript numbers that hold frame indices are modelled as integers (the
code only ever adds, subtracts and compares whole frame counts); audio
durations in seconds and caption timestamps are modelled as rationals.
Asynchronous effects (HTTP requests, toasts) are modelled as event traces,
and the two concurrently launched task groups as an interleaving relation
on their serialized traces.
-/

namespace AVCG

/-- src/type/CourseType.tsx CaptionChunk: text is required, start and end
optional. The source field end is named stop here (reserved word). -/
structure CaptionChunk where
  text : String
  start : Option ℚ
  stop : Option ℚ
deriving DecidableEq

/-- src/type/CourseType.tsx Caption: the chunks array is optional. -/
structure Caption where
  chunks : Option (List CaptionChunk)
deriving DecidableEq

/-- The fields of ChapterContentSlide / CourseIntroSlide that the core
reads: slideId, chapterId (unused on intro slides), audioFileUrl, caption.
Fields the core never touches (html, narration, revealData, ...) are
omitted. -/
structure Slide where
  slideId : String
  chapterId : String
  audioFileUrl : Option String
  caption : Option Caption
deriving DecidableEq

/-- src/type/CourseType.tsx Chapter (subContent unused by the core). -/
structure Chapter where
  chapterId : String
  chapterTitle : String
deriving DecidableEq

/-- src/type/CourseType.tsx CourseLayout, restricted to the chapters list
(the only field generateMissingContent reads). -/
structure CourseLayout where
  chapters : List Chapter
deriving DecidableEq

/-- src/type/CourseType.tsx Course, restricted to the fields
generateMissingContent reads. courseLayout is optional because the code
defensively writes course.courseLayout?.chapters. -/
structure Course where
  courseLayout : Option CourseLayout
  courseIntroSlides : Option (List Slide)
  chapterContentSlide : Option (List Slide)
deriving DecidableEq

/-! ## Timeline composer (getSlideAtFrame, page.tsx lines 219-245) -/

/-- A durationBySlideId record: slideId keyed frame counts. Entries are
natural numbers: the spec data model (section 3) fixes DurationMap values
to positive integer frame counts, and the resolver only ever produces
values of at least 1. -/
abbrev DurationMap := List (String × ℕ)

/-- JS numeric truthiness fallback v || d: an absent entry and a zero
entry both fall back to the default. -/
def jsOrNat (v : Option ℕ) (d : ℕ) : ℕ :=
  match v with
  | some n => if n = 0 then d else n
  | none => d

/-- durationBySlideId[slide.slideId] || 180 from getSlideAtFrame. -/
def lookupDur (m : DurationMap) (sid : String) : ℕ :=
  jsOrNat (m.lookup sid) 180

/-- The record literal getSlideAtFrame returns. The slide is an Option
because the fall-through branch reads slides[slides.length - 1], which is
undefined on an empty list. -/
structure FrameResult where
  slide : Option Slide
  localFrame : ℤ
  duration : ℕ
  startFrame : ℤ
deriving DecidableEq

/-- The for-loop of getSlideAtFrame: walk the slides accumulating the
running start offset, returning the first slide whose interval contains
frame. -/
def slideWalk (m : DurationMap) (frame : ℤ) : List Slide → ℤ → Option FrameResult
  | [], _ => none
  | s :: rest, cum =>
    let dur := lookupDur m s.slideId
    if frame < cum + dur then some ⟨some s, frame - cum, dur, cum⟩
    else slideWalk m frame rest (cum + dur)

/-- The cumulative offset after walking every slide: sum of the looked-up
durations. -/
def totalDur (m : DurationMap) (slides : List Slide) : ℕ :=
  (slides.map (fun s => lookupDur m s.slideId)).sum

/-- getSlideAtFrame from page.tsx lines 219-245 (the identical copy also
appears after CourseComposition in the generate-course-layout source
file). The loop either hits a slide interval, or falls through to the
clamp-to-last-slide branch with cumulative equal to the total duration. -/
def getSlideAtFrame (frame : ℤ) (slides : List Slide) (m : DurationMap) : FrameResult :=
  match slideWalk m frame slides 0 with
  | some r => r
  | none =>
    let lastDur : ℕ :=
      match slides.getLast? with
      | some s => lookupDur m s.slideId
      | none => 180
    { slide := slides.getLast?
      localFrame := (lastDur : ℤ) - 1
      duration := lastDur
      startFrame := (totalDur m slides : ℤ) - lastDur }

/-- The per-slide duration exactly as claim C5 words it: the map entry, or
the 180-frame default when absent. -/
def specDur (m : DurationMap) (sid : String) : ℕ :=
  (m.lookup sid).getD 180

/-- Total duration in the wording of claim C5: sum of map-entry-or-180. -/
def specTotal (m : DurationMap) (slides : List Slide) : ℕ :=
  (slides.map (fun s => specDur m s.slideId)).sum

/-! ## Captions (CourseComposition, page.tsx lines 279-287; SlideContent,
ChapterVideo.tsx lines 29-40) -/

/-- The find predicate of CourseComposition: chunk.start and chunk.end are
defined and start <= t <= end, both bounds inclusive. -/
def chunkMatches (t : ℚ) (c : CaptionChunk) : Bool :=
  match c.start, c.stop with
  | some s, some e => decide (s ≤ t) && decide (t ≤ e)
  | _, _ => false

/-- The chunk list slide?.caption?.chunks reachable from a slide; an
absent caption or absent chunks array reads as the empty list (the find
then yields undefined and the caption text falls back to the empty
string, which is what the getD below produces). -/
def chunksOfSlide (slide : Option Slide) : List CaptionChunk :=
  ((slide.bind Slide.caption).bind Caption.chunks).getD []

/-- currentCaption of CourseComposition (page.tsx lines 279-287):
currentTime = localFrame / fps, then
slide?.caption?.chunks?.find(inclusive-bounds match)?.text || "". -/
def currentCaptionOf (slide : Option Slide) (localFrame : ℤ) (fps : ℚ) : String :=
  let currentTime : ℚ := (localFrame : ℚ) / fps
  (((chunksOfSlide slide).find? (chunkMatches currentTime)).map CaptionChunk.text).getD ""

/-- The for-loop of SlideContent (ChapterVideo.tsx lines 33-40): skip
chunks with undefined bounds, break on the first chunk whose inclusive
interval contains t, else fall through to the empty string. -/
def captionLoop (t : ℚ) : List CaptionChunk → String
  | [] => ""
  | c :: rest =>
    match c.start, c.stop with
    | some s, some e => if s ≤ t ∧ t ≤ e then c.text else captionLoop t rest
    | _, _ => captionLoop t rest

/-- currentCaption of SlideContent: frame / fps over
slide?.caption?.chunks || []. -/
def slideContentCaption (slide : Option Slide) (frame : ℤ) (fps : ℚ) : String :=
  captionLoop ((frame : ℚ) / fps) (chunksOfSlide slide)

/-! ## Duration resolver (computeDurations, page.tsx lines 49-64) -/

/-- const FPS = 30 (page.tsx line 11). -/
def FPS : ℚ := 30

/-- A probe failure of the external audio-probe capability
(getAudioData): asset unreachable, decode error, or timeout. -/
inductive ProbeError where
  | unreachable
  | decodeError
  | timeout
deriving DecidableEq

/-- The slice of remotion getAudioData output the resolver reads. -/
structure AudioData where
  durationInSeconds : ℚ
deriving DecidableEq

/-- The external audio-probe capability: maps an asset URL to audio
metadata or a failure. -/
abbrev Probe := String → Except ProbeError AudioData

/-- The Promise.all(slides.map(...)) body of computeDurations: probe each
audioFileUrl of each slide (?? "" when absent) and turn seconds into
max(1, Math.round(seconds * FPS)) frames. Math.round on an exact rational
is floor(x + 1/2), which is Mathlib round. A rejected probe rejects the
whole Promise.all; the Except short-circuits on the first failing slide
in slide order, one deterministic serialization of that rejection. -/
def resolveEntries (getAudioData : Probe) : List Slide → Except ProbeError (List (String × ℤ))
  | [] => .ok []
  | slide :: rest => do
    let audioData ← getAudioData (slide.audioFileUrl.getD "")
    let entries ← resolveEntries getAudioData rest
    pure ((slide.slideId, max 1 (round (audioData.durationInSeconds * FPS))) :: entries)

/-- computeDurations (page.tsx lines 49-64): null (modelled none) on an
empty slide list, otherwise Object.fromEntries of the probed entries
(modelled as the entry list itself), with any probe rejection propagating
to the caller as the Except error. -/
def computeDurations (getAudioData : Probe) (slides : List Slide) :
    Except ProbeError (Option (List (String × ℤ))) :=
  if slides.isEmpty then .ok none
  else (resolveEntries getAudioData slides).map (fun entries => some entries)

/-- Names the payload of a successful probe result (arbitrary on the
error constructor; only used under a success hypothesis). -/
def okData (r : Except ProbeError AudioData) : AudioData :=
  match r with
  | .ok a => a
  | .error _ => ⟨0⟩

/-! ## Generation orchestrator (generateMissingContent, page.tsx lines
87-159)

The async function is modelled by the observable event trace it emits:
each axios request and each toast is an event. The intro task and the
chapter task group run concurrently (two promises joined by
Promise.all), so the full trace is any interleaving of the two group
traces followed by the final-refresh events. -/

/-- What the client can observe of one axios error:
err?.response?.status (absent on pure network failures) and the
retry_after the 429 body carries. -/
structure ApiError where
  status : Option ℤ
  retryAfter : Option ℤ
deriving DecidableEq

/-- Outcome of one generation request. -/
abbrev ApiResult := Except ApiError Unit

/-- Observable events of one generateMissingContent run: HTTP requests
issued and toast messages shown to the user. -/
inductive Event where
  | introRequest
  | chapterRequest (chapterId : String)
  | refreshRequest
  | toast (message : String)
deriving DecidableEq

/-- The status === 429 test in the catch block of the chapter loop. -/
def isRateLimit (r : ApiResult) : Bool :=
  match r with
  | .ok _ => false
  | .error e => e.status == some 429

/-- The sequential for-loop over missingChapters (page.tsx lines
123-142): loading toast, POST generate-video-content, then success
toast and continue, or on 429 the fixed rate-limit toast and break, or
on any other failure the failure toast and continue. -/
def chapterLoopTrace (respond : Chapter → ApiResult) : List Chapter → List Event
  | [] => []
  | ch :: rest =>
    Event.toast ("Generating \"" ++ ch.chapterTitle ++ "\"...") ::
    Event.chapterRequest ch.chapterId ::
    match respond ch with
    | .ok _ =>
      Event.toast ("\"" ++ ch.chapterTitle ++ "\" generated!") ::
      chapterLoopTrace respond rest
    | .error e =>
      if e.status == some 429 then
        [Event.toast "Rate limit hit — try again in a few minutes"]
      else
        Event.toast ("Failed for \"" ++ ch.chapterTitle ++ "\"") ::
        chapterLoopTrace respond rest

/-- The intro task (page.tsx lines 102-117): loading toast, POST
generate-course-intro, success or failure toast. -/
def introTaskTrace (introRespond : ApiResult) : List Event :=
  Event.toast "Generating course intro..." ::
  Event.introRequest ::
  match introRespond with
  | .ok _ => [Event.toast "Course intro generated!"]
  | .error _ => [Event.toast "Failed to generate intro"]

/-- The final refresh after Promise.all (page.tsx lines 151-158):
loading toast, GET course, success or failure toast. It is emitted
unconditionally, whatever the task outcomes were. -/
def refreshTrace (refreshRespond : Except ApiError Course) : List Event :=
  Event.toast "Refreshing course..." ::
  Event.refreshRequest ::
  match refreshRespond with
  | .ok _ => [Event.toast "Course updated!"]
  | .error _ => [Event.toast "Failed to refresh course"]

/-- Gap detection (page.tsx lines 88-94): layout chapters whose
chapterId is not among the chapterContentSlide chapterIds, in layout
order. -/
def missingChapters (course : Course) : List Chapter :=
  let allChapters := (course.courseLayout.map CourseLayout.chapters).getD []
  let generatedChapterIds := (course.chapterContentSlide.getD []).map Slide.chapterId
  allChapters.filter (fun ch => !(generatedChapterIds.contains ch.chapterId))

/-- needsIntro = !course.courseIntroSlides?.length (page.tsx line 95):
true when the intro slide list is absent or empty. -/
def needsIntro (course : Course) : Bool :=
  (course.courseIntroSlides.getD []).isEmpty

/-- The external collaborators of one run: the outcome of the intro
request, of each chapter request, and of the final refresh fetch. -/
structure GenEnv where
  introRespond : ApiResult
  chapterRespond : Chapter → ApiResult
  refreshRespond : Except ApiError Course

/-- The trace of the intro task group: present only when needsIntro. -/
def introTraceOf (course : Course) (env : GenEnv) : List Event :=
  if needsIntro course then introTaskTrace env.introRespond else []

/-- The trace of the chapter task group: the sequential loop over the
missing chapters (empty when none are missing, matching the length guard
in the source). -/
def chapterTraceOf (course : Course) (env : GenEnv) : List Event :=
  chapterLoopTrace env.chapterRespond (missingChapters course)

/-- zs is an interleaving of xs and ys: the order within each of xs and
ys is preserved, steps may alternate arbitrarily. Models the concurrent
execution of the two task groups on the single-threaded event loop. -/
inductive Interleave : List Event → List Event → List Event → Prop where
  | nil : Interleave [] [] []
  | left (x : Event) {xs ys zs : List Event} :
      Interleave xs ys zs → Interleave (x :: xs) ys (x :: zs)
  | right (y : Event) {xs ys zs : List Event} :
      Interleave xs ys zs → Interleave xs (y :: ys) (y :: zs)

/-- The possible traces of generateMissingContent course (page.tsx lines
87-159): either the no-op short circuit at line 98 (no events at all),
or any interleaving of the two task group traces, followed — strictly
after the Promise.all join — by the final refresh events. -/
inductive GenerateMissingContent (course : Course) (env : GenEnv) : List Event → Prop where
  | nothingMissing :
      needsIntro course = false → missingChapters course = [] →
      GenerateMissingContent course env []
  | run (il : List Event) :
      (needsIntro course = true ∨ missingChapters course ≠ []) →
      Interleave (introTraceOf course env) (chapterTraceOf course env) il →
      GenerateMissingContent course env (il ++ refreshTrace env.refreshRespond)

/-- The chapter-generation requests of a trace, in emission order. -/
def requestsOf (tr : List Event) : List String :=
  tr.filterMap (fun e =>
    match e with
    | .chapterRequest cid => some cid
    | _ => none)

/-- Generation requests (intro or chapter), as opposed to the refresh
fetch and toasts. -/
def isGenRequest (e : Event) : Bool :=
  match e with
  | .introRequest => true
  | .chapterRequest _ => true
  | _ => false

/-! ## generate-video-content route, catch branch (route.ts lines 45-75) -/

/-- What the catch block of the route reads off the upstream axios error. -/
structure UpstreamError where
  status : Option ℤ
  retryAfterHeader : Option String
  detailMessage : Option String
deriving DecidableEq

/-- The JSON body shapes the three catch branches produce. -/
inductive RouteBody where
  | rateLimitDetail (error : String) (message : String) (retry_after : Option ℤ)
  | validation (error : String)
  | generic (error : String)
deriving DecidableEq

/-- An HTTP response of the route: status, JSON body, optional
Retry-After response header. -/
structure RouteResponse where
  status : ℤ
  body : RouteBody
  retryAfterHeader : Option String
deriving DecidableEq

/-- Longest leading digit run of a character list. -/
def leadingDigits : List Char → List Char
  | [] => []
  | c :: rest => if c.isDigit then c :: leadingDigits rest else []

/-- Decimal value of a digit list. -/
def digitsToNat (l : List Char) : ℕ :=
  l.foldl (fun acc c => acc * 10 + (c.toNat - 48)) 0

/-- JS parseInt(s, 10): skip leading whitespace, optional sign, longest
leading digit run; NaN (modelled none) when no digits lead. -/
def jsParseInt (s : String) : Option ℤ :=
  match s.data.dropWhile Char.isWhitespace with
  | [] => none
  | c :: rest =>
    if c = '-' then
      match leadingDigits rest with
      | [] => none
      | ds => some (-(digitsToNat ds : ℤ))
    else if c = '+' then
      match leadingDigits rest with
      | [] => none
      | ds => some (digitsToNat ds)
    else
      match leadingDigits (c :: rest) with
      | [] => none
      | ds => some (digitsToNat ds)

/-- The catch block of the generate-video-content POST handler (route.ts
lines 45-75): status = e.response?.status ?? 500; the 429 branch echoes
retry-after (header value, defaulting to "60") in the body message,
the parsed retry_after field, and the Retry-After response header; 422
surfaces validation; anything else falls back to a generic error. -/
def handleVideoContentError (e : UpstreamError) : RouteResponse :=
  let status := e.status.getD 500
  if status == 429 then
    let retryAfter := e.retryAfterHeader.getD "60"
    { status := 429
      body := RouteBody.rateLimitDetail "rate_limit_exceeded"
        ("Too many requests. Try again in " ++ retryAfter ++ "s.")
        (jsParseInt retryAfter)
      retryAfterHeader := some retryAfter }
  else if status == 422 then
    { status := 422, body := RouteBody.validation "Validation error", retryAfterHeader := none }
  else
    { status := status
      body := RouteBody.generic (e.detailMessage.getD "Failed to generate video content")
      retryAfterHeader := none }

/-! ## Concrete fixtures used by witnesses and counterexamples -/

/-- A slide with an audio asset. -/
def ws1 : Slide := ⟨"s1", "c1", some "u1", none⟩

/-- A slide without an audio asset. -/
def ws2 : Slide := ⟨"s2", "c1", none, none⟩

/-- A two-entry duration map for ws1 and ws2. -/
def wmap : DurationMap := [("s1", 2), ("s2", 3)]

/-- A caption chunk covering seconds 1 to 2. -/
def wchunk : CaptionChunk := ⟨"Hello", some 1, some 2⟩

/-- A slide carrying exactly wchunk. -/
def wcslide : Slide := ⟨"s1", "c1", none, some ⟨some [wchunk]⟩⟩

/-- Three chapters in layout order. -/
def wchA : Chapter := ⟨"c1", "Ch 1"⟩

/-- Second chapter. -/
def wchB : Chapter := ⟨"c2", "Ch 2"⟩

/-- Third chapter. -/
def wchC : Chapter := ⟨"c3", "Ch 3"⟩

/-- Responder that rate-limits the second chapter and succeeds elsewhere. -/
def wRespondRL2 : Chapter → ApiResult := fun ch =>
  if ch.chapterId == "c2" then .error ⟨some 429, some 60⟩ else .ok ()

/-- Responder that fails the second chapter with a 500 and succeeds
elsewhere. -/
def wRespond5002 : Chapter → ApiResult := fun ch =>
  if ch.chapterId == "c2" then .error ⟨some 500, none⟩ else .ok ()

/-- Responder that rate-limits every chapter, advertising 60 seconds. -/
def wRespond429a : Chapter → ApiResult := fun _ => .error ⟨some 429, some 60⟩

/-- Responder that rate-limits every chapter, advertising 120 seconds. -/
def wRespond429b : Chapter → ApiResult := fun _ => .error ⟨some 429, some 120⟩

/-- A course whose layout lists wchA..wchC, with no content at all. -/
def wCourseEmpty : Course := ⟨some ⟨[wchA, wchB, wchC]⟩, none, none⟩

/-- A course with intro slides present and every layout chapter covered by
a content slide. -/
def wCourseFull : Course :=
  ⟨some ⟨[wchA]⟩, some [ws2], some [⟨"s9", "c1", none, none⟩]⟩

/-- An environment where every request fails with a plain 500. -/
def wEnvAllFail : GenEnv :=
  ⟨.error ⟨some 500, none⟩, fun _ => .error ⟨some 500, none⟩, .error ⟨some 500, none⟩⟩

/-- A probe that always fails (asset unreachable). -/
def wProbeFail : Probe := fun _ => .error .unreachable

/-- A probe that always reports 2.3 seconds of audio. -/
def wProbe23 : Probe := fun _ => .ok ⟨23 / 10⟩

/-- The class of a response the chapter loop can distinguish: success,
or failure with a given status. -/
def respClass (r : ApiResult) : Option (Option ℤ) :=
  match r with
  | .ok _ => none
  | .error e => some e.status


/-! ## Composer lemmas -/

theorem lookupDur_pos (m : DurationMap) (sid : String) : 0 < lookupDur m sid := by
  unfold lookupDur jsOrNat
  cases h : m.lookup sid with
  | none => norm_num
  | some n =>
    by_cases hn : n = 0 <;> simp [hn]
    omega

theorem lookup_mem_values {m : DurationMap} {sid : String} {n : ℕ}
    (h : m.lookup sid = some n) : ∃ p ∈ m, p.2 = n := by
  induction m with
  | nil => simp [List.lookup] at h
  | cons p rest ih =>
    rw [List.lookup] at h
    by_cases hk : (sid == p.1) = true
    · simp only [hk] at h
      injection h with h2
      exact ⟨p, List.mem_cons_self p rest, h2⟩
    · have hk2 : (sid == p.1) = false := by simpa using hk
      simp only [hk2] at h
      obtain ⟨q, hq, hv⟩ := ih h
      exact ⟨q, List.mem_cons_of_mem p hq, hv⟩

theorem specDur_eq_lookupDur (m : DurationMap) (sid : String)
    (hm : ∀ p ∈ m, p.2 ≠ 0) : specDur m sid = lookupDur m sid := by
  unfold specDur lookupDur jsOrNat
  cases h : m.lookup sid with
  | none => rfl
  | some n =>
    obtain ⟨p, hp, hv⟩ := lookup_mem_values h
    have hn : n ≠ 0 := hv ▸ hm p hp
    simp [hn]

theorem slideWalk_nil (m : DurationMap) (f cum : ℤ) : slideWalk m f [] cum = none := rfl

theorem slideWalk_cons (m : DurationMap) (f : ℤ) (a : Slide) (rest : List Slide) (cum : ℤ) :
    slideWalk m f (a :: rest) cum =
      if f < cum + (lookupDur m a.slideId : ℤ) then
        some ⟨some a, f - cum, lookupDur m a.slideId, cum⟩
      else slideWalk m f rest (cum + lookupDur m a.slideId) := rfl

theorem totalDur_nil (m : DurationMap) : totalDur m [] = 0 := rfl

theorem totalDur_cons (m : DurationMap) (a : Slide) (rest : List Slide) :
    totalDur m (a :: rest) = lookupDur m a.slideId + totalDur m rest := by
  simp [totalDur]

theorem slideWalk_hit (m : DurationMap) :
    ∀ (slides : List Slide) (i : ℕ) (s : Slide) (cum f : ℤ),
      slides[i]? = some s →
      cum + (totalDur m (slides.take i) : ℤ) ≤ f →
      f < cum + (totalDur m (slides.take (i + 1)) : ℤ) →
      slideWalk m f slides cum =
        some ⟨some s, f - (cum + (totalDur m (slides.take i) : ℤ)),
          lookupDur m s.slideId, cum + (totalDur m (slides.take i) : ℤ)⟩ := by
  intro slides
  induction slides with
  | nil => intro i s cum f h _ _; simp at h
  | cons a rest ih =>
    intro i s cum f h h1 h2
    cases i with
    | zero =>
      rw [List.getElem?_cons_zero] at h
      injection h with h
      subst h
      rw [slideWalk_cons]
      have hlt : f < cum + (lookupDur m a.slideId : ℤ) := by
        rw [List.take_succ_cons, List.take_zero, totalDur_cons, totalDur_nil] at h2
        push_cast at h2
        linarith
      rw [if_pos hlt]
      rw [List.take_zero, totalDur_nil]
      norm_num
    | succ n =>
      rw [List.getElem?_cons_succ] at h
      rw [List.take_succ_cons, totalDur_cons] at h1 h2 ⊢
      rw [slideWalk_cons]
      have hge : ¬ f < cum + (lookupDur m a.slideId : ℤ) := by
        push_cast at h1
        have : (0 : ℤ) ≤ (totalDur m (rest.take n) : ℤ) := Int.natCast_nonneg _
        linarith
      rw [if_neg hge]
      have hmain := ih n s (cum + (lookupDur m a.slideId : ℤ)) f h
        (by push_cast at h1 ⊢; linarith) (by push_cast at h2 ⊢; linarith)
      rw [hmain]
      simp only [Option.some.injEq, FrameResult.mk.injEq]
      refine ⟨trivial, by push_cast; ring, trivial, by push_cast; ring⟩

theorem slideWalk_past_total (m : DurationMap) :
    ∀ (slides : List Slide) (cum f : ℤ),
      cum + (totalDur m slides : ℤ) ≤ f →
      slideWalk m f slides cum = none := by
  intro slides
  induction slides with
  | nil => intro cum f _; rfl
  | cons a rest ih =>
    intro cum f h
    rw [totalDur_cons] at h
    push_cast at h
    rw [slideWalk_cons, if_neg (by
      have : (0 : ℤ) ≤ (totalDur m rest : ℤ) := Int.natCast_nonneg _
      linarith)]
    exact ih (cum + (lookupDur m a.slideId : ℤ)) f (by linarith)

theorem slideWalk_covered (m : DurationMap) :
    ∀ (slides : List Slide) (cum f : ℤ),
      slides ≠ [] →
      f < cum + (totalDur m slides : ℤ) →
      ∃ r, slideWalk m f slides cum = some r ∧
        r.slide.isSome = true ∧ r.localFrame = f - r.startFrame := by
  intro slides
  induction slides with
  | nil => intro cum f h _; exact absurd rfl h
  | cons a rest ih =>
    intro cum f _ hlt
    rw [slideWalk_cons]
    by_cases hc : f < cum + (lookupDur m a.slideId : ℤ)
    · rw [if_pos hc]
      exact ⟨_, rfl, rfl, by simp⟩
    · rw [if_neg hc]
      push_neg at hc
      have hrest : rest ≠ [] := by
        intro hr
        subst hr
        rw [totalDur_cons, totalDur_nil] at hlt
        push_cast at hlt
        linarith
      exact ih (cum + (lookupDur m a.slideId : ℤ)) f hrest
        (by rw [totalDur_cons] at hlt; push_cast at hlt ⊢; linarith)

theorem getSlideAtFrame_of_walk_some {m : DurationMap} {f : ℤ} {slides : List Slide}
    {r : FrameResult} (h : slideWalk m f slides 0 = some r) :
    getSlideAtFrame f slides m = r := by
  unfold getSlideAtFrame
  rw [h]

theorem getSlideAtFrame_of_walk_none {m : DurationMap} {f : ℤ} {slides : List Slide}
    {s : Slide} (h : slideWalk m f slides 0 = none) (hl : slides.getLast? = some s) :
    getSlideAtFrame f slides m =
      ⟨some s, (lookupDur m s.slideId : ℤ) - 1, lookupDur m s.slideId,
        (totalDur m slides : ℤ) - lookupDur m s.slideId⟩ := by
  unfold getSlideAtFrame
  rw [h, hl]

theorem specTotal_eq_totalDur (m : DurationMap) (hm : ∀ p ∈ m, p.2 ≠ 0) :
    ∀ slides : List Slide, specTotal m slides = totalDur m slides := by
  intro slides
  induction slides with
  | nil => rfl
  | cons a rest ih =>
    unfold specTotal totalDur at ih ⊢
    simp only [List.map_cons, List.sum_cons, ih]
    rw [specDur_eq_lookupDur m a.slideId hm]

theorem slideWalk_slide_isSome (m : DurationMap) :
    ∀ (slides : List Slide) (cum f : ℤ) (r : FrameResult),
      slideWalk m f slides cum = some r → r.slide.isSome = true := by
  intro slides
  induction slides with
  | nil => intro cum f r h; simp [slideWalk_nil] at h
  | cons a rest ih =>
    intro cum f r h
    rw [slideWalk_cons] at h
    by_cases hc : f < cum + (lookupDur m a.slideId : ℤ)
    · rw [if_pos hc] at h
      injection h with h
      subst h
      rfl
    · rw [if_neg hc] at h
      exact ih _ f r h

/-- Claim C5: for every non-empty slide list and duration map (a DurationMap
carries positive entries), with per-slide durations read as the map entry
or the 180-frame default when absent, getSlideAtFrame partitions
[0, totalDuration) into contiguous, non-overlapping intervals in slide
order: the i-th slide is returned exactly on
[sum of first i durations, sum of first i+1 durations), with localFrame
the offset into the interval and slideStartFrame the interval start; and
every frame at or beyond totalDuration returns the last slide with
localFrame = lastSlideDuration - 1 and
slideStartFrame = totalDuration - lastSlideDuration. -/
theorem getSlideAtFrame_partition_and_clamp (slides : List Slide) (m : DurationMap)
    (hne : slides ≠ []) (hm : ∀ p ∈ m, p.2 ≠ 0) :
    (∀ (i : ℕ) (s : Slide), slides[i]? = some s →
      ∀ f : ℤ, (specTotal m (slides.take i) : ℤ) ≤ f →
        f < (specTotal m (slides.take (i + 1)) : ℤ) →
        getSlideAtFrame f slides m =
          ⟨some s, f - (specTotal m (slides.take i) : ℤ), specDur m s.slideId,
            (specTotal m (slides.take i) : ℤ)⟩)
    ∧ (∀ f : ℤ, (specTotal m slides : ℤ) ≤ f →
        ∃ lastS, slides.getLast? = some lastS ∧
          getSlideAtFrame f slides m =
            ⟨some lastS, (specDur m lastS.slideId : ℤ) - 1, specDur m lastS.slideId,
              (specTotal m slides : ℤ) - (specDur m lastS.slideId : ℤ)⟩) := by
  have hconv := specTotal_eq_totalDur m hm
  constructor
  · intro i s h f h1 h2
    rw [hconv] at h1 h2
    have hw := slideWalk_hit m slides i s 0 f h (by simpa using h1) (by simpa using h2)
    rw [getSlideAtFrame_of_walk_some hw]
    rw [hconv, specDur_eq_lookupDur m s.slideId hm]
    simp only [FrameResult.mk.injEq]
    refine ⟨trivial, by ring, trivial, by ring⟩
  · intro f hf
    rw [hconv] at hf
    have hw := slideWalk_past_total m slides 0 f (by simpa using hf)
    have hl : slides.getLast?.isSome = true := by
      rw [List.getLast?_isSome]
      exact hne
    obtain ⟨lastS, hlast⟩ := Option.isSome_iff_exists.mp hl
    refine ⟨lastS, hlast, ?_⟩
    rw [getSlideAtFrame_of_walk_none hw hlast]
    rw [hconv, specDur_eq_lookupDur m lastS.slideId hm]

/-- Witness for C5 at a concrete two-slide timeline: frame 3 lies in the
second slide interval [2, 5). -/
theorem getSlideAtFrame_partition_and_clamp_witness :
    ([ws1, ws2] ≠ ([] : List Slide) ∧ ∀ p ∈ wmap, p.2 ≠ 0) ∧
      getSlideAtFrame 3 [ws1, ws2] wmap =
        ⟨some ws2, 3 - (specTotal wmap ([ws1, ws2].take 1) : ℤ), specDur wmap ws2.slideId,
          (specTotal wmap ([ws1, ws2].take 1) : ℤ)⟩ :=
  ⟨⟨by decide, by decide⟩,
    (getSlideAtFrame_partition_and_clamp [ws1, ws2] wmap (by decide) (by decide)).1
      1 ws2 (by decide) 3 (by decide) (by decide)⟩

/-- Claim C10: getSlideAtFrame is total on every integer frame (it always
returns a defined slide for a non-empty slide list); the lower bound is
not clamped — any negative frame resolves to the first slide with
localFrame equal to that negative frame and slideStartFrame 0 — and no
frame below the total duration is clamped, since there
localFrame = frame - slideStartFrame exactly. -/
theorem getSlideAtFrame_no_lower_clamp (slides : List Slide) (m : DurationMap)
    (s0 : Slide) (h : slides.head? = some s0) :
    (∀ frame : ℤ, frame < 0 →
      getSlideAtFrame frame slides m = ⟨some s0, frame, lookupDur m s0.slideId, 0⟩)
    ∧ (∀ frame : ℤ, frame < (totalDur m slides : ℤ) →
      (getSlideAtFrame frame slides m).localFrame =
        frame - (getSlideAtFrame frame slides m).startFrame)
    ∧ (∀ frame : ℤ, ((getSlideAtFrame frame slides m).slide).isSome = true) := by
  obtain ⟨rest, rfl⟩ : ∃ rest, slides = s0 :: rest := by
    cases slides with
    | nil => simp at h
    | cons a rest =>
      rw [List.head?_cons] at h
      injection h with h
      exact ⟨rest, by rw [h]⟩
  have hne : s0 :: rest ≠ [] := by simp
  refine ⟨?_, ?_, ?_⟩
  · intro frame hneg
    have hpos : (0 : ℤ) < (lookupDur m s0.slideId : ℤ) := by
      exact_mod_cast lookupDur_pos m s0.slideId
    have hw : slideWalk m frame (s0 :: rest) 0 =
        some ⟨some s0, frame - 0, lookupDur m s0.slideId, 0⟩ := by
      rw [slideWalk_cons, if_pos (by linarith)]
    rw [getSlideAtFrame_of_walk_some hw]
    norm_num
  · intro frame hlt
    obtain ⟨r, hw, _, hlf⟩ := slideWalk_covered m (s0 :: rest) 0 frame hne (by simpa using hlt)
    rw [getSlideAtFrame_of_walk_some hw]
    exact hlf
  · intro frame
    cases hw : slideWalk m frame (s0 :: rest) 0 with
    | some r =>
      rw [getSlideAtFrame_of_walk_some hw]
      exact slideWalk_slide_isSome m (s0 :: rest) 0 frame r hw
    | none =>
      have hl : (s0 :: rest).getLast?.isSome = true := by
        rw [List.getLast?_isSome]
        exact hne
      obtain ⟨lastS, hlast⟩ := Option.isSome_iff_exists.mp hl
      rw [getSlideAtFrame_of_walk_none hw hlast]
      rfl

/-- Witness for C10 at a concrete two-slide timeline and frame -7. -/
theorem getSlideAtFrame_no_lower_clamp_witness :
    [ws1, ws2].head? = some ws1 ∧
      getSlideAtFrame (-7) [ws1, ws2] wmap = ⟨some ws1, -7, lookupDur wmap ws1.slideId, 0⟩ :=
  ⟨by decide,
    (getSlideAtFrame_no_lower_clamp [ws1, ws2] wmap ws1 (by decide)).1 (-7) (by decide)⟩

/-! ## Caption lemmas -/

theorem find_first_match {α : Type} (p : α → Bool) :
    ∀ (l1 : List α) (c : α) (l2 : List α),
      (∀ x ∈ l1, p x = false) → p c = true →
      (l1 ++ c :: l2).find? p = some c := by
  intro l1
  induction l1 with
  | nil =>
    intro c l2 _ hc
    rw [List.nil_append]
    exact List.find?_cons_of_pos l2 hc
  | cons a rest ih =>
    intro c l2 hneg hc
    rw [List.cons_append]
    rw [List.find?_cons_of_neg]
    · exact ih c l2 (fun x hx => hneg x (List.mem_cons_of_mem a hx)) hc
    · simp [hneg a (List.mem_cons_self a rest)]

theorem captionLoop_eq_find (t : ℚ) :
    ∀ chunks : List CaptionChunk,
      captionLoop t chunks = ((chunks.find? (chunkMatches t)).map CaptionChunk.text).getD "" := by
  intro chunks
  induction chunks with
  | nil => rfl
  | cons c rest ih =>
    obtain ⟨tx, cs, ce⟩ := c
    cases cs with
    | none =>
      rw [List.find?_cons_of_neg rest (by cases ce <;> simp [chunkMatches])]
      cases ce with
      | none => exact ih
      | some e => exact ih
    | some s =>
      cases ce with
      | none =>
        rw [List.find?_cons_of_neg rest (by simp [chunkMatches])]
        exact ih
      | some e =>
        by_cases hin : s ≤ t ∧ t ≤ e
        · have hm : chunkMatches t ⟨tx, some s, some e⟩ = true := by
            simp only [chunkMatches, Bool.and_eq_true, decide_eq_true_eq]
            exact hin
          rw [List.find?_cons_of_pos rest hm]
          show (if s ≤ t ∧ t ≤ e then tx else captionLoop t rest) = _
          rw [if_pos hin]
          rfl
        · have hm : ¬ chunkMatches t ⟨tx, some s, some e⟩ = true := by
            simp only [chunkMatches, Bool.and_eq_true, decide_eq_true_eq]
            exact hin
          rw [List.find?_cons_of_neg rest hm]
          show (if s ≤ t ∧ t ≤ e then tx else captionLoop t rest) = _
          rw [if_neg hin]
          exact ih

theorem currentCaptionOf_eq (slide : Option Slide) (f : ℤ) (fps : ℚ) :
    currentCaptionOf slide f fps =
      (((chunksOfSlide slide).find? (chunkMatches ((f : ℚ) / fps))).map
        CaptionChunk.text).getD "" := rfl

theorem wchunk_matches_iff (t : ℚ) :
    chunkMatches t wchunk = true ↔ (1 ≤ t ∧ t ≤ 2) := by
  simp only [wchunk, chunkMatches, Bool.and_eq_true, decide_eq_true_eq]

/-- Claim C6: the active caption converts the local frame to seconds as
localFrame / frameRate and returns the text of the first chunk whose
inclusive interval start <= t <= end contains it (first match wins on
overlap); it returns the empty string when no chunk matches, which
includes a slide with no captions; the loop-based SlideContent variant
agrees with the find-based CourseComposition variant everywhere; and on
the chunk {start 1, end 2} at 30 fps, frames 30 and 60 both return its
text while frame 61 returns the empty string. -/
theorem activeCaption_first_inclusive_match (sl : Slide)
    (chunks l1 : List CaptionChunk) (c : CaptionChunk) (l2 : List CaptionChunk)
    (f : ℤ) (fps : ℚ) :
    (sl.caption = some ⟨some chunks⟩ →
      chunks = l1 ++ c :: l2 →
      (∀ c2 ∈ l1, chunkMatches ((f : ℚ) / fps) c2 = false) →
      chunkMatches ((f : ℚ) / fps) c = true →
      currentCaptionOf (some sl) f fps = c.text)
    ∧ ((∀ c2 ∈ chunksOfSlide (some sl), chunkMatches ((f : ℚ) / fps) c2 = false) →
      currentCaptionOf (some sl) f fps = "")
    ∧ (∀ (sl2 : Option Slide) (f2 : ℤ) (fps2 : ℚ),
      slideContentCaption sl2 f2 fps2 = currentCaptionOf sl2 f2 fps2)
    ∧ (currentCaptionOf (some wcslide) 30 30 = "Hello"
      ∧ currentCaptionOf (some wcslide) 60 30 = "Hello"
      ∧ currentCaptionOf (some wcslide) 61 30 = "") := by
  have hwc : chunksOfSlide (some wcslide) = [wchunk] := rfl
  refine ⟨?_, ?_, ?_, ?_, ?_, ?_⟩
  · intro hcap hsplit hneg hc
    rw [currentCaptionOf_eq]
    have hchunks : chunksOfSlide (some sl) = chunks := by
      unfold chunksOfSlide
      rw [show (some sl).bind Slide.caption = sl.caption from rfl, hcap]
      rfl
    rw [hchunks, hsplit, find_first_match (chunkMatches ((f : ℚ) / fps)) l1 c l2 hneg hc]
    rfl
  · intro hnone
    rw [currentCaptionOf_eq]
    rw [List.find?_eq_none.mpr (fun x hx => by simp [hnone x hx])]
    rfl
  · intro sl2 f2 fps2
    exact captionLoop_eq_find ((f2 : ℚ) / fps2) (chunksOfSlide sl2)
  · rw [currentCaptionOf_eq, hwc]
    rw [List.find?_cons_of_pos _ (by rw [wchunk_matches_iff]; norm_num)]
    rfl
  · rw [currentCaptionOf_eq, hwc]
    rw [List.find?_cons_of_pos _ (by rw [wchunk_matches_iff]; norm_num)]
    rfl
  · rw [currentCaptionOf_eq, hwc]
    rw [List.find?_cons_of_neg _ (by rw [wchunk_matches_iff]; norm_num)]
    rfl

/-- Witness for C6 on the concrete one-chunk slide at frame 30. -/
theorem activeCaption_first_inclusive_match_witness :
    (wcslide.caption = some ⟨some [wchunk]⟩ ∧
        chunkMatches (((30 : ℤ) : ℚ) / 30) wchunk = true) ∧
      currentCaptionOf (some wcslide) 30 30 = wchunk.text :=
  ⟨⟨rfl, by rw [wchunk_matches_iff]; norm_num⟩,
    (activeCaption_first_inclusive_match wcslide [wchunk] [] wchunk [] 30 30).1
      rfl rfl (by intro c2 hc2; simp at hc2)
      (by rw [wchunk_matches_iff]; norm_num)⟩

/-! ## Resolver lemmas -/

theorem exceptBind_ok {ε α β : Type} (a : α) (f : α → Except ε β) :
    (Except.ok a : Except ε α) >>= f = f a := rfl

theorem exceptBind_error {ε α β : Type} (e : ε) (f : α → Except ε β) :
    (Except.error e : Except ε α) >>= f = Except.error e := rfl

theorem exceptPure {ε α : Type} (a : α) : (pure a : Except ε α) = Except.ok a := rfl

theorem exceptMap_ok {ε α β : Type} (f : α → β) (a : α) :
    Except.map f (Except.ok a : Except ε α) = Except.ok (f a) := rfl

theorem exceptMap_error {ε α β : Type} (f : α → β) (e : ε) :
    Except.map f (Except.error e : Except ε α) = Except.error e := rfl

theorem resolveEntries_nil (p : Probe) : resolveEntries p [] = .ok [] := rfl

theorem resolveEntries_cons (p : Probe) (s : Slide) (rest : List Slide) :
    resolveEntries p (s :: rest) =
      p (s.audioFileUrl.getD "") >>= fun audioData =>
        resolveEntries p rest >>= fun entries =>
          pure ((s.slideId, max 1 (round (audioData.durationInSeconds * FPS))) :: entries) := rfl

theorem computeDurations_nonempty (p : Probe) (s : Slide) (rest : List Slide) :
    computeDurations p (s :: rest) =
      Except.map (fun entries => some entries) (resolveEntries p (s :: rest)) := rfl

theorem resolveEntries_all_ok (p : Probe) :
    ∀ slides : List Slide,
      (∀ s ∈ slides, ∃ a, p (s.audioFileUrl.getD "") = .ok a) →
      resolveEntries p slides = .ok (slides.map (fun s =>
        (s.slideId,
          max 1 (round ((okData (p (s.audioFileUrl.getD ""))).durationInSeconds * FPS))))) := by
  intro slides
  induction slides with
  | nil => intro _; rfl
  | cons s rest ih =>
    intro h
    obtain ⟨a, ha⟩ := h s (List.mem_cons_self s rest)
    have hrest := ih (fun s2 hs2 => h s2 (List.mem_cons_of_mem s hs2))
    rw [resolveEntries_cons, ha, exceptBind_ok, hrest, exceptBind_ok, List.map_cons]
    have hok : okData (p (s.audioFileUrl.getD "")) = a := by rw [ha]; rfl
    rw [hok, exceptPure]

theorem resolveEntries_first_error (p : Probe) (e : ProbeError) :
    ∀ (pre : List Slide) (s : Slide) (post : List Slide),
      (∀ s2 ∈ pre, (p (s2.audioFileUrl.getD "")).isOk = true) →
      p (s.audioFileUrl.getD "") = .error e →
      resolveEntries p (pre ++ s :: post) = .error e := by
  intro pre
  induction pre with
  | nil =>
    intro s post _ herr
    rw [List.nil_append, resolveEntries_cons, herr, exceptBind_error]
  | cons q rest ih =>
    intro s post hok herr
    have hq := hok q (List.mem_cons_self q rest)
    obtain ⟨a, ha⟩ : ∃ a, p (q.audioFileUrl.getD "") = .ok a := by
      cases hp : p (q.audioFileUrl.getD "") with
      | ok a => exact ⟨a, rfl⟩
      | error e2 => rw [hp] at hq; simp [Except.isOk, Except.toBool] at hq
    have hrest := ih s post (fun s2 hs2 => hok s2 (List.mem_cons_of_mem q hs2)) herr
    rw [List.cons_append, resolveEntries_cons, ha, exceptBind_ok, hrest, exceptBind_error]

theorem resolveEntries_entries_pos (p : Probe) :
    ∀ (slides : List Slide) (r : List (String × ℤ)),
      resolveEntries p slides = .ok r → ∀ q ∈ r, 1 ≤ q.2 := by
  intro slides
  induction slides with
  | nil =>
    intro r h q hq
    rw [resolveEntries_nil] at h
    injection h with h
    subst h
    simp at hq
  | cons s rest ih =>
    intro r h q hq
    rw [resolveEntries_cons] at h
    cases hp : p (s.audioFileUrl.getD "") with
    | error e =>
      rw [hp, exceptBind_error] at h
      exact Except.noConfusion h
    | ok a =>
      rw [hp, exceptBind_ok] at h
      cases hrest : resolveEntries p rest with
      | error e =>
        rw [hrest, exceptBind_error] at h
        exact Except.noConfusion h
      | ok es =>
        rw [hrest, exceptBind_ok, exceptPure] at h
        injection h with h
        subst h
        rcases List.mem_cons.mp hq with hq | hq
        · subst hq
          exact le_max_left 1 _
        · exact ih es hrest q hq

/-- Claim C1 is false on the code as written: computeDurations has no internal
fallback at all. A slide whose audioFileUrl is absent is probed at the
empty-string URL, and when that probe fails the error propagates out of
computeDurations (Promise.all rejects) instead of yielding the
frameRate*6 default. -/
theorem computeDurations_error_propagates_cex :
    computeDurations wProbeFail [ws2] = .error .unreachable ∧
      computeDurations wProbeFail [ws2] ≠ .ok (some [(ws2.slideId, 180)]) := by
  constructor
  · rfl
  · intro h
    rw [computeDurations_nonempty, resolveEntries_cons,
      show wProbeFail (ws2.audioFileUrl.getD "") = .error .unreachable from rfl,
      exceptBind_error, exceptMap_error] at h
    exact Except.noConfusion h

/-- Claim C1 as amended: computeDurations substitutes no default duration. A
slide with absent audioFileUrl is probed at the empty-string URL and the
whole call mirrors that probe outcome; more generally, the first
failing probe in slide order rejects the whole call with that error. The
frameRate*6 and 180-frame defaults live only in downstream consumers of
the duration map. -/
theorem computeDurations_propagates_probe_failure :
    (∀ (p : Probe) (s : Slide), s.audioFileUrl = none →
      computeDurations p [s] =
        match p "" with
        | .ok a => .ok (some [(s.slideId, max 1 (round (a.durationInSeconds * FPS)))])
        | .error e => .error e)
    ∧ (∀ (p : Probe) (e : ProbeError) (pre : List Slide) (s : Slide) (post : List Slide),
        (∀ s2 ∈ pre, (p (s2.audioFileUrl.getD "")).isOk = true) →
        p (s.audioFileUrl.getD "") = .error e →
        computeDurations p (pre ++ s :: post) = .error e) := by
  constructor
  · intro p s hurl
    rw [computeDurations_nonempty, resolveEntries_cons, hurl, Option.getD_none]
    cases hp : p "" with
    | ok a =>
      rw [exceptBind_ok, resolveEntries_nil, exceptBind_ok, exceptPure, exceptMap_ok]
    | error e =>
      rw [exceptBind_error, exceptMap_error]
  · intro p e pre s post hok herr
    have hres := resolveEntries_first_error p e pre s post hok herr
    cases pre with
    | nil =>
      rw [List.nil_append] at hres ⊢
      rw [computeDurations_nonempty, hres, exceptMap_error]
    | cons q rest =>
      rw [List.cons_append] at hres ⊢
      rw [computeDurations_nonempty, hres, exceptMap_error]

/-- Witness for the amended C1: the always-failing probe on the
url-less slide ws2 makes computeDurations return that probe error. -/
theorem computeDurations_propagates_probe_failure_witness :
    ws2.audioFileUrl = none ∧
      computeDurations wProbeFail [ws2] =
        (match wProbeFail "" with
          | .ok a => .ok (some [(ws2.slideId, max 1 (round (a.durationInSeconds * FPS)))])
          | .error e => .error e) :=
  ⟨rfl, computeDurations_propagates_probe_failure.1 wProbeFail ws2 rfl⟩

/-- Claim C7 is false on the code as written: computeDurations returns null
(modelled as none), not an empty mapping, when the slide list is
empty. -/
theorem computeDurations_empty_cex :
    computeDurations wProbeFail [] = .ok none ∧
      computeDurations wProbeFail [] ≠ .ok (some []) := by
  constructor
  · rfl
  · intro h
    simp [computeDurations] at h

/-- Claim C7 as amended: computeDurations applied to an empty slide list
returns null (none), an absent result that its caller tests and skips
committing; it does not return an empty mapping. -/
theorem computeDurations_empty_returns_null :
    ∀ p : Probe, computeDurations p [] = .ok none :=
  fun _ => rfl

/-- Claim C8: when every probe succeeds, computeDurations maps each slide to
max(1, round(seconds * FPS)) frames at the canonical frame rate FPS = 30;
every entry of any successful result is at least 1 frame; and a 2.3
second probe yields exactly 69 frames. -/
theorem computeDurations_success_frames :
    (∀ (p : Probe) (slides : List Slide), slides ≠ [] →
      (∀ s ∈ slides, ∃ a, p (s.audioFileUrl.getD "") = .ok a) →
      computeDurations p slides = .ok (some (slides.map (fun s =>
        (s.slideId,
          max 1 (round ((okData (p (s.audioFileUrl.getD ""))).durationInSeconds * FPS)))))))
    ∧ (∀ (p : Probe) (slides : List Slide) (r : List (String × ℤ)),
        computeDurations p slides = .ok (some r) → ∀ q ∈ r, 1 ≤ q.2)
    ∧ computeDurations wProbe23 [ws1] = .ok (some [("s1", 69)]) := by
  refine ⟨?_, ?_, ?_⟩
  · intro p slides hne h
    have hres := resolveEntries_all_ok p slides h
    cases slides with
    | nil => exact absurd rfl hne
    | cons a rest =>
      rw [computeDurations_nonempty, hres, exceptMap_ok]
  · intro p slides r h
    cases slides with
    | nil =>
      rw [show computeDurations p [] = .ok none from rfl] at h
      injection h with h
      exact Option.noConfusion h
    | cons a rest =>
      rw [computeDurations_nonempty] at h
      cases hres : resolveEntries p (a :: rest) with
      | error e =>
        rw [hres, exceptMap_error] at h
        exact Except.noConfusion h
      | ok es =>
        rw [hres, exceptMap_ok] at h
        injection h with h
        injection h with h
        subst h
        exact resolveEntries_entries_pos p (a :: rest) es hres
  · rw [computeDurations_nonempty, resolveEntries_cons,
      show wProbe23 (ws1.audioFileUrl.getD "") = .ok ⟨23 / 10⟩ from rfl,
      exceptBind_ok, resolveEntries_nil, exceptBind_ok, exceptPure, exceptMap_ok]
    have h69 : max 1 (round ((23 / 10 : ℚ) * FPS)) = 69 := by
      norm_num [FPS, round_eq]
    rw [show ws1.slideId = "s1" from rfl, h69]

/-! ## Orchestrator lemmas -/

theorem chapterLoopTrace_cons_ok (respond : Chapter → ApiResult) (ch : Chapter)
    (rest : List Chapter) (u : Unit) (h : respond ch = .ok u) :
    chapterLoopTrace respond (ch :: rest) =
      Event.toast ("Generating \"" ++ ch.chapterTitle ++ "\"...") ::
      Event.chapterRequest ch.chapterId ::
      Event.toast ("\"" ++ ch.chapterTitle ++ "\" generated!") ::
      chapterLoopTrace respond rest := by
  simp only [chapterLoopTrace]
  rw [h]

theorem chapterLoopTrace_cons_error (respond : Chapter → ApiResult) (ch : Chapter)
    (rest : List Chapter) (e : ApiError) (h : respond ch = .error e) :
    chapterLoopTrace respond (ch :: rest) =
      Event.toast ("Generating \"" ++ ch.chapterTitle ++ "\"...") ::
      Event.chapterRequest ch.chapterId ::
      (if (e.status == some 429) = true then
        [Event.toast "Rate limit hit — try again in a few minutes"]
      else
        Event.toast ("Failed for \"" ++ ch.chapterTitle ++ "\"") ::
        chapterLoopTrace respond rest) := by
  simp only [chapterLoopTrace]
  rw [h]

theorem requestsOf_chapterLoop_cons (respond : Chapter → ApiResult) (ch : Chapter)
    (rest : List Chapter) :
    requestsOf (chapterLoopTrace respond (ch :: rest)) =
      ch.chapterId ::
        (if isRateLimit (respond ch) = true then []
         else requestsOf (chapterLoopTrace respond rest)) := by
  cases hr : respond ch with
  | ok u =>
    simp [chapterLoopTrace, requestsOf, hr, isRateLimit]
  | error e =>
    by_cases h429 : (e.status == some 429) = true
    · simp [chapterLoopTrace, requestsOf, hr, isRateLimit, h429]
    · have h429f : (e.status == some 429) = false := by simpa using h429
      simp [chapterLoopTrace, requestsOf, hr, isRateLimit, h429f]

theorem requestsOf_chapterLoop_take (respond : Chapter → ApiResult) :
    ∀ missing : List Chapter, ∃ k, requestsOf (chapterLoopTrace respond missing) =
      (missing.map Chapter.chapterId).take k := by
  intro missing
  induction missing with
  | nil => exact ⟨0, rfl⟩
  | cons ch rest ih =>
    obtain ⟨k, hk⟩ := ih
    by_cases hrl : isRateLimit (respond ch) = true
    · refine ⟨1, ?_⟩
      rw [requestsOf_chapterLoop_cons, if_pos hrl, List.map_cons, List.take_succ_cons,
        List.take_zero]
    · refine ⟨k + 1, ?_⟩
      rw [requestsOf_chapterLoop_cons, if_neg hrl, hk, List.map_cons, List.take_succ_cons]

theorem requestsOf_chapterLoop_append_ok (respond : Chapter → ApiResult) :
    ∀ (pre rest : List Chapter), (∀ c ∈ pre, isRateLimit (respond c) = false) →
      requestsOf (chapterLoopTrace respond (pre ++ rest)) =
        pre.map Chapter.chapterId ++ requestsOf (chapterLoopTrace respond rest) := by
  intro pre
  induction pre with
  | nil => intro rest _; rfl
  | cons q qs ih =>
    intro rest h
    rw [List.cons_append, requestsOf_chapterLoop_cons,
      if_neg (by rw [h q (List.mem_cons_self q qs)]; simp),
      ih rest (fun c hc => h c (List.mem_cons_of_mem q hc)), List.map_cons, List.cons_append]

theorem interleave_count (a : Event) {xs ys zs : List Event} (h : Interleave xs ys zs) :
    zs.count a = xs.count a + ys.count a := by
  induction h with
  | nil => rfl
  | left x h2 ih =>
    rw [List.count_cons, List.count_cons, ih]
    ring
  | right y h2 ih =>
    rw [List.count_cons, List.count_cons, ih]
    ring

theorem interleave_append (xs ys : List Event) : Interleave xs ys (xs ++ ys) := by
  induction xs with
  | nil =>
    rw [List.nil_append]
    induction ys with
    | nil => exact .nil
    | cons y rest ih => exact .right y ih
  | cons x rest ih =>
    rw [List.cons_append]
    exact .left x ih

theorem count_refresh_introTaskTrace (r : ApiResult) :
    (introTaskTrace r).count Event.refreshRequest = 0 := by
  cases r <;> rfl

theorem count_refresh_chapterLoop (respond : Chapter → ApiResult) :
    ∀ l : List Chapter, (chapterLoopTrace respond l).count Event.refreshRequest = 0 := by
  intro l
  induction l with
  | nil => rfl
  | cons ch rest ih =>
    cases hr : respond ch with
    | ok u =>
      simp only [chapterLoopTrace, hr]
      rw [List.count_cons_of_ne (by simp), List.count_cons_of_ne (by simp),
        List.count_cons_of_ne (by simp)]
      exact ih
    | error e =>
      by_cases h429 : (e.status == some 429) = true
      · simp only [chapterLoopTrace, hr, if_pos h429]
        rfl
      · simp only [chapterLoopTrace, hr, if_neg h429]
        rw [List.count_cons_of_ne (by simp), List.count_cons_of_ne (by simp),
          List.count_cons_of_ne (by simp)]
        exact ih

theorem count_refresh_introTraceOf (course : Course) (env : GenEnv) :
    (introTraceOf course env).count Event.refreshRequest = 0 := by
  unfold introTraceOf
  by_cases h : needsIntro course = true
  · rw [if_pos h]
    exact count_refresh_introTaskTrace env.introRespond
  · rw [if_neg h]
    rfl

theorem count_refresh_refreshTrace (r : Except ApiError Course) :
    (refreshTrace r).count Event.refreshRequest = 1 := by
  cases r <;> rfl

theorem refreshTrace_getElem_one (r : Except ApiError Course) :
    (refreshTrace r)[1]? = some Event.refreshRequest := by
  cases r <;> rfl

theorem refreshTrace_no_genRequest (r : Except ApiError Course) :
    ∀ e ∈ refreshTrace r, isGenRequest e = false := by
  intro e he
  cases r with
  | ok c =>
    simp only [refreshTrace, List.mem_cons, List.mem_singleton] at he
    rcases he with rfl | rfl | rfl | he
    · rfl
    · rfl
    · rfl
    · simp at he
  | error e2 =>
    simp only [refreshTrace, List.mem_cons, List.mem_singleton] at he
    rcases he with rfl | rfl | rfl | he
    · rfl
    · rfl
    · rfl
    · simp at he

/-- Witness for C8 with the 2.3-second probe on a single slide. -/
theorem computeDurations_success_frames_witness :
    ([ws1] ≠ ([] : List Slide) ∧
        ∀ s ∈ [ws1], ∃ a, wProbe23 (s.audioFileUrl.getD "") = .ok a) ∧
      computeDurations wProbe23 [ws1] = .ok (some ([ws1].map (fun s =>
        (s.slideId,
          max 1 (round ((okData (wProbe23 (s.audioFileUrl.getD ""))).durationInSeconds * FPS)))))) :=
  ⟨⟨by decide, fun s _ => ⟨⟨23 / 10⟩, rfl⟩⟩,
    computeDurations_success_frames.1 wProbe23 [ws1] (by decide)
      (fun s _ => ⟨⟨23 / 10⟩, rfl⟩)⟩

/-- Claim C2: chapter-generation requests are issued one at a time in layout
order (the request list is always a prefix, in order, of the missing
chapters); when the chapters before ch all succeeded or failed without a
rate limit and ch itself hits a rate limit, the requests stop exactly
after ch — chapters after ch are never requested; when ch fails without
a rate limit, the next chapter is still requested. -/
theorem chapterLoop_sequential_rate_limit_abort (respond : Chapter → ApiResult)
    (missing : List Chapter) :
    (∃ k, requestsOf (chapterLoopTrace respond missing) =
      (missing.map Chapter.chapterId).take k)
    ∧ (∀ (pre : List Chapter) (ch : Chapter) (post : List Chapter),
        missing = pre ++ ch :: post →
        (∀ c ∈ pre, isRateLimit (respond c) = false) →
        ((isRateLimit (respond ch) = true →
            requestsOf (chapterLoopTrace respond missing) =
              pre.map Chapter.chapterId ++ [ch.chapterId])
          ∧ (isRateLimit (respond ch) = false →
            ∀ ch2 ∈ post.head?, ch2.chapterId ∈
              requestsOf (chapterLoopTrace respond missing)))) := by
  constructor
  · exact requestsOf_chapterLoop_take respond missing
  · intro pre ch post hsplit hok
    subst hsplit
    constructor
    · intro hrl
      rw [requestsOf_chapterLoop_append_ok respond pre (ch :: post) hok,
        requestsOf_chapterLoop_cons, if_pos hrl]
    · intro hnrl ch2 hch2
      rw [requestsOf_chapterLoop_append_ok respond pre (ch :: post) hok,
        requestsOf_chapterLoop_cons, if_neg (by rw [hnrl]; simp)]
      cases post with
      | nil => simp at hch2
      | cons c3 post2 =>
        rw [List.head?_cons] at hch2
        have hc3 : ch2 = c3 := by
          simpa [Option.mem_def] using hch2.symm
        subst hc3
        rw [requestsOf_chapterLoop_cons]
        apply List.mem_append_right
        exact List.mem_cons_of_mem _ (List.mem_cons_self _ _)

/-- Witness for C2: three missing chapters where the second rate-limits;
exactly the first two requests are issued. -/
theorem chapterLoop_sequential_rate_limit_abort_witness :
    ((∀ c ∈ [wchA], isRateLimit (wRespondRL2 c) = false) ∧
        isRateLimit (wRespondRL2 wchB) = true) ∧
      requestsOf (chapterLoopTrace wRespondRL2 [wchA, wchB, wchC]) =
        [wchA].map Chapter.chapterId ++ [wchB.chapterId] :=
  ⟨⟨by decide, by decide⟩,
    ((chapterLoop_sequential_rate_limit_abort wRespondRL2 [wchA, wchB, wchC]).2
      [wchA] wchB [wchC] rfl (by decide)).1 (by decide)⟩

/-- Claim C3: any reconciliation pass that launches at least one generation
task performs exactly one final course refresh, and that refresh comes
strictly after every generation request of both task groups, for every
interleaving of the two concurrently running groups and regardless of any
outcome of any task (the environment env carries arbitrary outcomes, including
all-failed and rate-limit-aborted ones). -/
theorem finalRefresh_once_after_join (course : Course) (env : GenEnv) (tr : List Event)
    (h : GenerateMissingContent course env tr)
    (hlaunch : needsIntro course = true ∨ missingChapters course ≠ []) :
    tr.count Event.refreshRequest = 1 ∧
      ∃ k, tr[k]? = some Event.refreshRequest ∧
        ∀ (j : ℕ) (e : Event), tr[j]? = some e → isGenRequest e = true → j < k := by
  cases h with
  | nothingMissing hni hmc =>
    cases hlaunch with
    | inl h2 => rw [hni] at h2; exact absurd h2 (by simp)
    | inr h2 => exact absurd hmc h2
  | run il hl hint =>
    have hcount_il : il.count Event.refreshRequest = 0 := by
      rw [interleave_count Event.refreshRequest hint, count_refresh_introTraceOf]
      unfold chapterTraceOf
      rw [count_refresh_chapterLoop]
    constructor
    · rw [List.count_append, hcount_il, count_refresh_refreshTrace]
    · refine ⟨il.length + 1, ?_, ?_⟩
      · rw [List.getElem?_append_right (by omega),
          show il.length + 1 - il.length = 1 from by omega]
        exact refreshTrace_getElem_one env.refreshRespond
      · intro j e hj hgen
        by_cases hjl : j < il.length
        · omega
        · exfalso
          push_neg at hjl
          rw [List.getElem?_append_right hjl] at hj
          have hmem : e ∈ refreshTrace env.refreshRespond := List.getElem?_mem hj
          rw [refreshTrace_no_genRequest env.refreshRespond e hmem] at hgen
          exact Bool.false_ne_true hgen

/-- Witness for C3 on a concrete all-failing run over a course missing
its intro and all three chapters. -/
theorem finalRefresh_once_after_join_witness :
    GenerateMissingContent wCourseEmpty wEnvAllFail
        ((introTraceOf wCourseEmpty wEnvAllFail ++ chapterTraceOf wCourseEmpty wEnvAllFail) ++
          refreshTrace wEnvAllFail.refreshRespond) ∧
      ((introTraceOf wCourseEmpty wEnvAllFail ++ chapterTraceOf wCourseEmpty wEnvAllFail) ++
          refreshTrace wEnvAllFail.refreshRespond).count Event.refreshRequest = 1 :=
  ⟨.run _ (Or.inl (by decide))
      (interleave_append (introTraceOf wCourseEmpty wEnvAllFail)
        (chapterTraceOf wCourseEmpty wEnvAllFail)),
    (finalRefresh_once_after_join wCourseEmpty wEnvAllFail _
      (.run _ (Or.inl (by decide))
        (interleave_append (introTraceOf wCourseEmpty wEnvAllFail)
          (chapterTraceOf wCourseEmpty wEnvAllFail)))
      (Or.inl (by decide))).1⟩

/-- Claim C4: when the intro slides are present and non-empty and every layout
chapterId of every layout chapter appears among the chapterIds of the chapter content slides,
generateMissingContent short-circuits: its trace is empty — zero
generation requests, zero refresh fetches, zero toasts. -/
theorem reconcile_noop_when_complete (course : Course) (env : GenEnv)
    (l : List Slide) (hintro : course.courseIntroSlides = some l) (hl : l ≠ [])
    (hch : ∀ ch ∈ (course.courseLayout.map CourseLayout.chapters).getD [],
      ch.chapterId ∈ (course.chapterContentSlide.getD []).map Slide.chapterId) :
    ∀ tr : List Event, GenerateMissingContent course env tr → tr = [] := by
  have hni : needsIntro course = false := by
    unfold needsIntro
    rw [hintro, Option.getD_some]
    cases l with
    | nil => exact absurd rfl hl
    | cons a rest => rfl
  have hmc : missingChapters course = [] := by
    unfold missingChapters
    rw [List.filter_eq_nil_iff]
    intro ch hch2
    have hmem := hch ch hch2
    have : ((course.chapterContentSlide.getD []).map Slide.chapterId).contains
        ch.chapterId = true := by
      exact List.elem_iff.mpr hmem
    rw [this]
    simp
  intro tr htr
  cases htr with
  | nothingMissing _ _ => rfl
  | run il hl2 hint =>
    cases hl2 with
    | inl h2 => rw [hni] at h2; exact absurd h2 (by simp)
    | inr h2 => exact absurd hmc h2

/-- Witness for C4: the fully generated course yields the empty trace. -/
theorem reconcile_noop_when_complete_witness :
    GenerateMissingContent wCourseFull wEnvAllFail [] ∧ ([] : List Event) = [] :=
  ⟨.nothingMissing (by decide) (by decide),
    reconcile_noop_when_complete wCourseFull wEnvAllFail [ws2] rfl (by decide) (by decide)
      [] (.nothingMissing (by decide) (by decide))⟩

/-- Claim C9 is false on the code as written: the user-visible rate-limit
report of the chapter loop is the fixed toast "Rate limit hit — try
again in a few minutes". Two 429 responses carrying different
retry-after values (60 vs 120) produce identical traces, so the numeric
retry-after the 429 response carries is not surfaced to the user. -/
theorem rateLimit_toast_fixed_cex :
    chapterLoopTrace wRespond429a [wchA] = chapterLoopTrace wRespond429b [wchA]
    ∧ chapterLoopTrace wRespond429a [wchA] =
        [Event.toast "Generating \"Ch 1\"...", Event.chapterRequest "c1",
          Event.toast "Rate limit hit — try again in a few minutes"]
    ∧ wRespond429a wchA ≠ wRespond429b wchA := by
  refine ⟨rfl, rfl, ?_⟩
  intro h
  rw [show wRespond429a wchA = .error ⟨some 429, some 60⟩ from rfl,
    show wRespond429b wchA = .error ⟨some 429, some 120⟩ from rfl] at h
  injection h with h
  injection h with h1 h2
  exact absurd h2 (by decide)

/-- Claim C9 as amended: the numeric retry-after of a 429 lives only in the API
response of the API route: the 429 branch of the generate-video-content route carries
retry_after = parseInt(Retry-After header, default "60") in its body,
echoes the header, and embeds the value in its message; the client
chapter loop, however, distinguishes responses only by status — its
trace, including the fixed rate-limit toast, is identical for any two
responders with equal statuses, whatever retry-after they carry. -/
theorem rateLimit_retryAfter_route_only :
    (∀ e : UpstreamError, e.status = some 429 →
      handleVideoContentError e =
        { status := 429
          body := RouteBody.rateLimitDetail "rate_limit_exceeded"
            ("Too many requests. Try again in " ++ e.retryAfterHeader.getD "60" ++ "s.")
            (jsParseInt (e.retryAfterHeader.getD "60"))
          retryAfterHeader := some (e.retryAfterHeader.getD "60") })
    ∧ jsParseInt "60" = some 60
    ∧ (∀ (r1 r2 : Chapter → ApiResult) (l : List Chapter),
        (∀ c, respClass (r1 c) = respClass (r2 c)) →
        chapterLoopTrace r1 l = chapterLoopTrace r2 l) := by
  refine ⟨?_, ?_, ?_⟩
  · intro e he
    unfold handleVideoContentError
    rw [he, Option.getD_some]
    rfl
  · rfl
  · intro r1 r2 l h
    induction l with
    | nil => rfl
    | cons ch rest ih =>
      have hch := h ch
      cases h1 : r1 ch with
      | ok u =>
        cases h2 : r2 ch with
        | ok u2 =>
          rw [chapterLoopTrace_cons_ok r1 ch rest u h1,
            chapterLoopTrace_cons_ok r2 ch rest u2 h2, ih]
        | error e2 =>
          rw [h1, h2] at hch
          exact absurd hch (by simp [respClass])
      | error e1 =>
        cases h2 : r2 ch with
        | ok u2 =>
          rw [h1, h2] at hch
          exact absurd hch (by simp [respClass])
        | error e2 =>
          rw [h1, h2] at hch
          have hst : e1.status = e2.status := by
            simpa [respClass] using hch
          rw [chapterLoopTrace_cons_error r1 ch rest e1 h1,
            chapterLoopTrace_cons_error r2 ch rest e2 h2, hst, ih]

/-- Witness for the amended C9 at a concrete 429 with Retry-After 90. -/
theorem rateLimit_retryAfter_route_only_witness :
    (⟨some 429, some "90", none⟩ : UpstreamError).status = some 429 ∧
      handleVideoContentError ⟨some 429, some "90", none⟩ =
        { status := 429
          body := RouteBody.rateLimitDetail "rate_limit_exceeded"
            ("Too many requests. Try again in " ++
              (some "90" : Option String).getD "60" ++ "s.")
            (jsParseInt ((some "90" : Option String).getD "60"))
          retryAfterHeader := some ((some "90" : Option String).getD "60") } :=
  ⟨rfl, rateLimit_retryAfter_route_only.1 ⟨some 429, some "90", none⟩ rfl⟩

end AVCG
